import Mathlib

/-!
# Pomodoro-Pro timer engine: a shallow embedding of `src/app/page.js`

The page is a single React component.  Its state is five `useState` cells
(`durations`, `currentStage`, `timeRemaining`, `isRunning`,
`completedFocusSessions`); its behaviour is the event handlers together with
three `useEffect`s:

* the interval effect (lines 46–62) decrements `timeRemaining` once per
  second while `isRunning`, flooring at 0;
* the stage-completion effect (lines 79–85) calls `handleStageCompletion`
  after any render in which its dependencies changed, when `isRunning` and
  `timeRemaining ≤ 0`;
* the resync effect (lines 87–93) sets
  `timeRemaining := durations[currentStage] * 60` after any render in which
  `(currentStage, durations, isRunning)` changed, when `isRunning` is false.

We embed each event handler as a function on the state followed by the
effect cascade (`runEffects`): after a handler's batched update commits,
the applicable effects run, each of their updates commits as a new render,
and the effects are re-examined against the previous render, until a fixed
point.  React compares dependencies with `Object.is`; `setDurations` always
builds a fresh object, so a durations update counts as a changed dependency
even when the stored numbers are equal — the `durationsObjChanged` flag
carries that distinction.  The completion effect's dependency list is
`[handleStageCompletion, isRunning, timeRemaining]`, and the callback
identity of `handleStageCompletion` changes with `currentStage` and (via
`goToStage`) with `durations`.
-/

inductive StageKind where
  | focus
  | shortBreak
  | longBreak
deriving DecidableEq, Repr

/-- The three per-stage minute settings (the `durations` state object,
initialised from `STAGES[stage].minutes`). -/
structure Durations where
  focus : ℕ
  shortBreak : ℕ
  longBreak : ℕ
deriving DecidableEq, Repr

def Durations.get (d : Durations) : StageKind → ℕ
  | .focus => d.focus
  | .shortBreak => d.shortBreak
  | .longBreak => d.longBreak

def Durations.set (d : Durations) : StageKind → ℕ → Durations
  | .focus, v => { d with focus := v }
  | .shortBreak, v => { d with shortBreak := v }
  | .longBreak, v => { d with longBreak := v }

/-- `STAGES` default minutes: Focus 25, ShortBreak 5, LongBreak 15. -/
def defaultDurations : Durations := { focus := 25, shortBreak := 5, longBreak := 15 }

/-- `LONG_BREAK_INTERVAL` (page.js line 13). -/
def LONG_BREAK_INTERVAL : ℕ := 4

/-- `toSeconds` (page.js line 15). -/
def toSeconds (minutes : ℕ) : ℕ := minutes * 60

/-- `clamp` (page.js line 16): `Math.min(Math.max(value, min), max)`. -/
def clamp (value lo hi : ℤ) : ℤ := min (max value lo) hi

/-- The component's five state cells. -/
structure TimerState where
  durations : Durations
  currentStage : StageKind
  timeRemaining : ℕ
  isRunning : Bool
  completedFocusSessions : ℕ
deriving DecidableEq, Repr

/-- `goToStage` (page.js lines 36–44). -/
def goToStage (s : TimerState) (stage : StageKind) (autoStart : Bool) : TimerState :=
  { s with
    currentStage := stage
    timeRemaining := toSeconds (s.durations.get stage)
    isRunning := autoStart }

/-- `handleStageCompletion` (page.js lines 64–77). -/
def handleStageCompletion (s : TimerState) : TimerState :=
  if s.currentStage = .focus then
    let next := s.completedFocusSessions + 1
    let usesLongBreak := next % LONG_BREAK_INTERVAL = 0
    let nextStage : StageKind := if usesLongBreak then .longBreak else .shortBreak
    { goToStage s nextStage true with completedFocusSessions := next }
  else
    goToStage s .focus true

/-- The stage-completion effect (page.js lines 79–85) runs when its
dependencies changed and then calls `handleStageCompletion` unless
`!isRunning || timeRemaining > 0`. -/
def completionEffectFires (prev cur : TimerState) (durationsObjChanged : Bool) : Bool :=
  (durationsObjChanged
      || decide (prev.currentStage ≠ cur.currentStage)
      || decide (prev.durations ≠ cur.durations)
      || decide (prev.isRunning ≠ cur.isRunning)
      || decide (prev.timeRemaining ≠ cur.timeRemaining))
    && cur.isRunning && decide (cur.timeRemaining = 0)

/-- The resync effect (page.js lines 87–93) runs when
`(currentStage, durations, isRunning)` changed and then, unless `isRunning`,
sets `timeRemaining := toSeconds (durations[currentStage])`. -/
def resyncEffectFires (prev cur : TimerState) (durationsObjChanged : Bool) : Bool :=
  (durationsObjChanged
      || decide (prev.currentStage ≠ cur.currentStage)
      || decide (prev.durations ≠ cur.durations)
      || decide (prev.isRunning ≠ cur.isRunning))
    && !cur.isRunning

/-- The post-commit effect cascade.  `prev` is the previous render, `cur`
the just-committed one.  The two state-writing effects are mutually
exclusive in any one render (one needs `isRunning`, the other its
negation).  The fuel bounds the cascade; every handler below settles within
2 rounds whenever the stored durations are positive, so fuel 3 is exact on
every state this development evaluates. -/
def runEffects : ℕ → TimerState → Bool → TimerState → TimerState
  | 0, _, _, cur => cur
  | fuel + 1, prev, durationsObjChanged, cur =>
    if completionEffectFires prev cur durationsObjChanged then
      runEffects fuel cur false (handleStageCompletion cur)
    else if resyncEffectFires prev cur durationsObjChanged then
      runEffects fuel cur false
        { cur with timeRemaining := toSeconds (cur.durations.get cur.currentStage) }
    else cur

/-- One firing of the interval callback (page.js lines 51–59): only exists
while `isRunning`; floors at 0 once `prev <= 1`.  A zero-crossing is
followed by the effect cascade, which performs the stage completion. -/
def tick (s : TimerState) : TimerState :=
  if s.isRunning then
    runEffects 3 s false
      { s with timeRemaining := if s.timeRemaining ≤ 1 then 0 else s.timeRemaining - 1 }
  else s

/-- `handleStartPause` (page.js lines 119–121). -/
def handleStartPause (s : TimerState) : TimerState :=
  runEffects 3 s false { s with isRunning := !s.isRunning }

/-- `handleSkip` (page.js lines 123–126): `setIsRunning(false)` then
`handleStageCompletion()` in one batched update. -/
def handleSkip (s : TimerState) : TimerState :=
  runEffects 3 s false (handleStageCompletion { s with isRunning := false })

/-- `handleReset` (page.js lines 128–138). -/
def handleReset (s : TimerState) : TimerState :=
  runEffects 3 s true
    { durations := defaultDurations
      currentStage := .focus
      timeRemaining := toSeconds 25
      isRunning := false
      completedFocusSessions := 0 }

/-- `handleManualStageChange` (page.js lines 107–117), restricted to the
three valid string keys the `Tabs` control offers; the untyped
string-key path, including its `typeof key !== "string"` guard, is
modelled separately below as `jsHandleManualStageChange`. -/
def handleManualStageChange (s : TimerState) (stage : StageKind) : TimerState :=
  runEffects 3 s false (goToStage { s with isRunning := false } stage false)

/-- Decimal digits to the number they denote. -/
def natOfDigits (l : List Char) : ℕ :=
  l.foldl (fun acc c => 10 * acc + (c.toNat - 48)) 0

/-- An unsigned JS decimal mantissa: `digits`, `digits.digits`, `.digits`
or `digits.` (`Number("12.")` and `Number(".5")` are valid), returned as
the numerator/denominator pair of
`natOfDigits (intPart ++ frac) / 10 ^ frac.length`. -/
def parseUnsignedDecimal (l : List Char) : Option (ℕ × ℕ) :=
  let intPart := l.takeWhile Char.isDigit
  let rest := l.drop intPart.length
  match rest with
  | [] => if intPart.isEmpty then none else some (natOfDigits intPart, 1)
  | '.' :: frac =>
    if intPart.isEmpty ∧ frac.isEmpty then none
    else if frac.all Char.isDigit then
      some (natOfDigits (intPart ++ frac), 10 ^ frac.length)
    else none
  | _ => none

def parseSignedMantissa (l : List Char) : Option (ℤ × ℕ) :=
  match l with
  | '+' :: r => (parseUnsignedDecimal r).map fun p => ((p.1 : ℤ), p.2)
  | '-' :: r => (parseUnsignedDecimal r).map fun p => (-(p.1 : ℤ), p.2)
  | _ => (parseUnsignedDecimal l).map fun p => ((p.1 : ℤ), p.2)

def parseSignedExponent (l : List Char) : Option ℤ :=
  match l with
  | '+' :: r => if r.isEmpty ∨ ¬r.all Char.isDigit then none else some (natOfDigits r)
  | '-' :: r => if r.isEmpty ∨ ¬r.all Char.isDigit then none else some (-(natOfDigits r : ℤ))
  | _ => if l.isEmpty ∨ ¬l.all Char.isDigit then none else some (natOfDigits l)

/-- JavaScript `Number(string)` on the values a numeric input field
produces: whitespace-only is 0, otherwise an optional sign, a decimal
mantissa and an optional `e`/`E` exponent; anything else is `NaN`
(`none`).  The exotic literal forms (`0x…`, `0b…`, `0o…`, `Infinity`),
which a numeric input never emits, are outside this model. -/
def jsNumberOfString (str : String) : Option ℚ :=
  let t := ((str.toList.dropWhile Char.isWhitespace).reverse.dropWhile Char.isWhitespace).reverse
  if t.isEmpty then some 0
  else
    let mantissa := t.takeWhile fun c => c ≠ 'e' ∧ c ≠ 'E'
    match t.drop mantissa.length with
    | [] => (parseSignedMantissa mantissa).map fun p => Rat.divInt p.1 p.2
    | _ :: expPart =>
      (parseSignedMantissa mantissa).bind fun p =>
        (parseSignedExponent expPart).map fun e =>
          if 0 ≤ e then Rat.divInt (p.1 * 10 ^ e.toNat) p.2
          else Rat.divInt p.1 (p.2 * 10 ^ (-e).toNat)

/-- `Number(value ?? 0)` (page.js line 96): `null`/`undefined` (modelled
as `none`) becomes the number 0; a string goes through `Number`. -/
def toNumeric : Option String → Option ℚ
  | none => some 0
  | some str => jsNumberOfString str

/-- JavaScript `Math.round(x)`: round half toward positive infinity,
that is ⌊x + 1/2⌋.  On the fraction `num/den` (with `den > 0`) this floor
is the floor division `(2*num + den).fdiv (2*den)`; `jsRound_eq_round`
below identifies it with Mathlib's `round`. -/
def jsRound (q : ℚ) : ℤ := Int.fdiv (2 * q.num + (q.den : ℤ)) (2 * (q.den : ℤ))

/-- `clamp(Math.round(numeric), 1, 90)` (page.js line 102). -/
def clampDuration (numeric : ℚ) : ℕ := (clamp (jsRound numeric) 1 90).toNat

/-- `handleDurationChange` (page.js lines 95–105): bail out on `NaN`,
otherwise store the rounded, clamped value; `setDurations` builds a fresh
object, so the effect dependencies on `durations` count as changed. -/
def handleDurationChange (s : TimerState) (stage : StageKind) (value : Option String) :
    TimerState :=
  match toNumeric value with
  | none => s
  | some numeric =>
    runEffects 3 s true { s with durations := s.durations.set stage (clampDuration numeric) }

/-- The engine's commands: the event handlers plus one interval firing. -/
inductive Cmd where
  | tick
  | toggleRunning
  | skip
  | reset
  | selectStage (stage : StageKind)
  | setDuration (stage : StageKind) (value : Option String)

def step : Cmd → TimerState → TimerState
  | .tick, s => tick s
  | .toggleRunning, s => handleStartPause s
  | .skip, s => handleSkip s
  | .reset, s => handleReset s
  | .selectStage stage, s => handleManualStageChange s stage
  | .setDuration stage value, s => handleDurationChange s stage value

/-- The initial render (page.js lines 24–34). -/
def initialState : TimerState :=
  { durations := defaultDurations
    currentStage := .focus
    timeRemaining := toSeconds 25
    isRunning := false
    completedFocusSessions := 0 }

/-- States the engine can actually be in: the initial render and anything
a command leads to. -/
inductive Reachable : TimerState → Prop where
  | init : Reachable initialState
  | next (c : Cmd) {s : TimerState} : Reachable s → Reachable (step c s)

/-- The stage `advanceStage()` moves to out of a Focus stage. -/
def nextFocusTarget (s : TimerState) : StageKind :=
  if (s.completedFocusSessions + 1) % LONG_BREAK_INTERVAL = 0 then .longBreak else .shortBreak

/-- Facts every reachable engine state satisfies: each stored duration is a
minute count in [1, 90]; while paused, `timeRemaining` equals the current
stage's full duration (any transition into a paused render triggers the
resync effect, or sets that value directly); while running, `timeRemaining`
is at least 1 (a zero-crossing is completed within the same command). -/
structure EngineInv (s : TimerState) : Prop where
  dur_lb : ∀ st, 1 ≤ s.durations.get st
  dur_ub : ∀ st, s.durations.get st ≤ 90
  paused_sync : s.isRunning = false →
    s.timeRemaining = toSeconds (s.durations.get s.currentStage)
  running_pos : s.isRunning = true → 1 ≤ s.timeRemaining

/-- States reachable when every duration edit happens while paused: the
initial render, closed under every command except that `setDuration` may
only be applied to a paused state. -/
inductive ReachablePausedEdits : TimerState → Prop where
  | init : ReachablePausedEdits initialState
  | next (c : Cmd) {s : TimerState}
      (hc : ∀ stage value, c = .setDuration stage value → s.isRunning = false) :
      ReachablePausedEdits s → ReachablePausedEdits (step c s)

/-- A reachable running state in mid-countdown: start the initial Focus
stage and let two seconds elapse (`timeRemaining = 1498`). -/
def midCountdownState : TimerState :=
  step .tick (step .tick (step .toggleRunning initialState))

/-- A reachable state whose countdown exceeds its stage's total: start the
Focus stage running, then lower the Focus duration to 1 minute — the
in-flight countdown (1500 s) is not resynchronized while running, but the
stage total is now 60 s. -/
def lowDurationState : TimerState :=
  step (.setDuration .focus (some "1")) (step .toggleRunning initialState)

/-- Scenario A's final state: from the initial render, `selectStage(Focus)`,
`toggleRunning()`, then 25 interval firings. -/
def scenarioAState : TimerState :=
  Nat.iterate (step .tick) 25 (step .toggleRunning (step (.selectStage .focus) initialState))

/-- `String.padStart(2, "0")`. -/
def padStart2 (str : String) : String :=
  if str.length < 2 then String.mk (List.replicate (2 - str.length) '0') ++ str else str

/-- `formatTime` (page.js lines 17–21). -/
def formatTime (seconds : ℕ) : String :=
  padStart2 (toString (seconds / 60)) ++ ":" ++ padStart2 (toString (seconds % 60))

/-- `formattedTime` (page.js lines 140–143). -/
def formattedTime (s : TimerState) : String := formatTime s.timeRemaining

/-- `totalSeconds` (page.js lines 145–148). -/
def totalSeconds (s : TimerState) : ℕ := toSeconds (s.durations.get s.currentStage)

/-- `progressValue` (page.js lines 150–155): a percentage, clamped above
at 100 by `Math.min` but not clamped below. -/
def progressValue (s : TimerState) : ℚ :=
  if totalSeconds s = 0 then 0
  else min 100 (((totalSeconds s : ℚ) - (s.timeRemaining : ℚ)) / (totalSeconds s : ℚ) * 100)

/-- The spec's `progressFraction()` query is the engine's progress as a
fraction of 1; the source computes the same quantity as the percentage
`progressValue`, so the fraction is that value scaled by 1/100. -/
def progressFraction (s : TimerState) : ℚ := progressValue s / 100

/-- `STAGES[stage].label` (page.js lines 6–10). -/
def stageLabel : StageKind → String
  | .focus => "集中"
  | .shortBreak => "小休憩"
  | .longBreak => "長休憩"

/-- `nextStageLabel` (page.js lines 164–171). -/
def nextStageLabel (s : TimerState) : String :=
  if s.currentStage = .focus then
    let willLongBreak := (s.completedFocusSessions + 1) % LONG_BREAK_INTERVAL = 0
    stageLabel (if willLongBreak then .longBreak else .shortBreak)
  else stageLabel .focus

/-!
## The untyped stage-selection path

`handleManualStageChange` receives whatever key the `Tabs` control
reports (a string or a number) and guards only `typeof key !== "string"`.
A string key is passed straight to `goToStage`, which indexes `durations`
with it: an unrecognized string yields `undefined`, and
`toSeconds(undefined)` is `NaN`.  To settle the invalid-key claim we model
this path over JS values: the stage cell holds an arbitrary string,
`durations` is the three-key object indexed by string (missing keys give
`undefined` = `none`), and a `timeRemaining` of `none` stands for `NaN`.
-/

inductive TabKey where
  | str (key : String)
  | nonString
deriving DecidableEq, Repr

structure JsState where
  durations : Durations
  currentStage : String
  timeRemaining : Option ℕ
  isRunning : Bool
  completedFocusSessions : ℕ
deriving DecidableEq, Repr

/-- Property lookup `durations[stage]` with a string key on the three-key
durations object. -/
def jsLookup (d : Durations) : String → Option ℕ
  | "focus" => some d.focus
  | "shortBreak" => some d.shortBreak
  | "longBreak" => some d.longBreak
  | _ => none

/-- `goToStage` on JS values: `toSeconds(durations[stage])` is `NaN`
(`none`) exactly when the key is not one of the three stage keys. -/
def jsGoToStage (s : JsState) (stage : String) (autoStart : Bool) : JsState :=
  { s with
    currentStage := stage
    timeRemaining := (jsLookup s.durations stage).map toSeconds
    isRunning := autoStart }

/-- The resync effect on JS values; after `handleManualStageChange` it
recomputes `timeRemaining` from the (possibly unrecognized) new stage key. -/
def jsResync (s : JsState) : JsState :=
  if s.isRunning then s
  else { s with timeRemaining := (jsLookup s.durations s.currentStage).map toSeconds }

/-- `handleManualStageChange` (page.js lines 107–117) on JS values: the
guard rejects only non-string keys; a string key of any spelling reaches
`goToStage`, and the resync effect then fires (its `currentStage` or
`isRunning` dependency changed, and the recomputation is the same lookup,
so applying it unconditionally is exact). -/
def jsHandleManualStageChange (s : JsState) (key : TabKey) : JsState :=
  match key with
  | .nonString => s
  | .str k => jsResync (jsGoToStage { s with isRunning := false } k false)

/-- The initial render, over JS values. -/
def jsInitialState : JsState :=
  { durations := defaultDurations
    currentStage := "focus"
    timeRemaining := some (toSeconds 25)
    isRunning := false
    completedFocusSessions := 0 }

/-! ## Basic lemmas about the embedded operations -/

theorem Durations.get_set (d : Durations) (st st' : StageKind) (v : ℕ) :
    (d.set st v).get st' = if st' = st then v else d.get st' := by
  cases st <;> cases st' <;> simp [Durations.get, Durations.set]

theorem clampDuration_lb (q : ℚ) : 1 ≤ clampDuration q := by
  unfold clampDuration clamp
  rcases le_total (jsRound q) 1 with h | h <;> rcases le_total (jsRound q) 90 with h' | h' <;>
    simp [min_def, max_def, *] <;> omega

theorem clampDuration_ub (q : ℚ) : clampDuration q ≤ 90 := by
  unfold clampDuration clamp
  rcases le_total (jsRound q) 1 with h | h <;> rcases le_total (jsRound q) 90 with h' | h' <;>
    simp [min_def, max_def, *] <;> omega

theorem jsRound_eq_round (q : ℚ) : jsRound q = round q := by
  have hd : ((q.den : ℚ)) ≠ 0 := by positivity
  have hnum : (q.num : ℚ) = q * (q.den : ℚ) := by
    rw [← div_eq_iff hd]
    exact Rat.num_div_den q
  have hne : ((2 * q.den : ℕ) : ℚ) ≠ 0 := by positivity
  have hq : q + 1/2 = ((2 * q.num + (q.den : ℤ) : ℤ) : ℚ) / ((2 * q.den : ℕ) : ℚ) := by
    rw [eq_div_iff hne]
    push_cast
    rw [hnum]
    ring
  rw [round_eq, hq, Rat.floor_intCast_div_natCast]
  unfold jsRound
  rw [Int.fdiv_eq_ediv _ (by positivity)]
  push_cast
  rfl

theorem runEffects_durations (n : ℕ) (prev cur : TimerState) (b : Bool) :
    (runEffects n prev b cur).durations = cur.durations := by
  induction n generalizing prev cur b with
  | zero => rfl
  | succ n ih =>
    unfold runEffects
    split
    · rw [ih]
      unfold handleStageCompletion goToStage
      split <;> rfl
    · split
      · rw [ih]
      · rfl

theorem handleStageCompletion_focus (s : TimerState) (h : s.currentStage = .focus) :
    handleStageCompletion s =
      { durations := s.durations
        currentStage := nextFocusTarget s
        timeRemaining := toSeconds (s.durations.get (nextFocusTarget s))
        isRunning := true
        completedFocusSessions := s.completedFocusSessions + 1 } := by
  simp only [handleStageCompletion, goToStage, nextFocusTarget, h, if_pos]

theorem handleStageCompletion_notFocus (s : TimerState) (h : s.currentStage ≠ .focus) :
    handleStageCompletion s =
      { s with
        currentStage := .focus
        timeRemaining := toSeconds s.durations.focus
        isRunning := true } := by
  simp [handleStageCompletion, goToStage, h, Durations.get]

theorem tick_notRunning (s : TimerState) (h : s.isRunning = false) : tick s = s := by
  simp [tick, h]

theorem tick_decrement (s : TimerState) (h : s.isRunning = true) (h2 : 2 ≤ s.timeRemaining) :
    tick s = { s with timeRemaining := s.timeRemaining - 1 } := by
  have hle : ¬s.timeRemaining ≤ 1 := by omega
  have hz : ¬(s.timeRemaining - 1 = 0) := by omega
  simp [tick, runEffects, completionEffectFires, resyncEffectFires, h, hle, hz]

theorem runEffects_stop (n : ℕ) (prev cur : TimerState) (b : Bool)
    (hc : completionEffectFires prev cur b = false)
    (hr : resyncEffectFires prev cur b = false) :
    runEffects (n + 1) prev b cur = cur := by
  simp [runEffects, hc, hr]

theorem runEffects_completion (n : ℕ) (prev cur : TimerState) (b : Bool)
    (hc : completionEffectFires prev cur b = true) :
    runEffects (n + 1) prev b cur = runEffects n cur false (handleStageCompletion cur) := by
  simp [runEffects, hc]

theorem runEffects_resync (n : ℕ) (prev cur : TimerState) (b : Bool)
    (hc : completionEffectFires prev cur b = false)
    (hr : resyncEffectFires prev cur b = true) :
    runEffects (n + 1) prev b cur =
      runEffects n cur false
        { cur with timeRemaining := toSeconds (cur.durations.get cur.currentStage) } := by
  simp [runEffects, hc, hr]

theorem completionEffectFires_of_notRunning (prev cur : TimerState) (b : Bool)
    (h : cur.isRunning = false) : completionEffectFires prev cur b = false := by
  simp [completionEffectFires, h]

theorem completionEffectFires_of_timeLeft (prev cur : TimerState) (b : Bool)
    (h : cur.timeRemaining ≠ 0) : completionEffectFires prev cur b = false := by
  simp [completionEffectFires, h]

theorem resyncEffectFires_of_running (prev cur : TimerState) (b : Bool)
    (h : cur.isRunning = true) : resyncEffectFires prev cur b = false := by
  simp [resyncEffectFires, h]

theorem resyncEffectFires_refl (cur : TimerState) : resyncEffectFires cur cur false = false := by
  simp [resyncEffectFires]

theorem tick_crossesZero (s : TimerState) (h : s.isRunning = true) (h1 : s.timeRemaining = 1)
    (hd : (handleStageCompletion { s with timeRemaining := 0 }).timeRemaining ≠ 0) :
    tick s = handleStageCompletion { s with timeRemaining := 0 } := by
  have hrun : (handleStageCompletion { s with timeRemaining := 0 }).isRunning = true := by
    unfold handleStageCompletion goToStage
    split <;> rfl
  have hstep : ({ s with timeRemaining := if s.timeRemaining ≤ 1 then 0 else s.timeRemaining - 1 }
      : TimerState) = { s with timeRemaining := 0 } := by
    rw [h1]
    rfl
  have hfire : completionEffectFires s { s with timeRemaining := 0 } false = true := by
    simp [completionEffectFires, h, h1]
  rw [tick, if_pos h, hstep, runEffects_completion _ _ _ _ hfire,
    runEffects_stop _ _ _ _ (completionEffectFires_of_timeLeft _ _ _ hd)
      (resyncEffectFires_of_running _ _ _ hrun)]

theorem resyncEffectFires_of_depsEq (prev cur : TimerState)
    (h1 : prev.currentStage = cur.currentStage) (h2 : prev.durations = cur.durations)
    (h3 : prev.isRunning = cur.isRunning) : resyncEffectFires prev cur false = false := by
  simp [resyncEffectFires, h1, h2, h3]


theorem handleStageCompletion_isRunning (s : TimerState) :
    (handleStageCompletion s).isRunning = true := by
  unfold handleStageCompletion goToStage
  split <;> rfl

theorem runEffects_resync_stop (n : ℕ) (prev cur : TimerState) (b : Bool)
    (hrun : cur.isRunning = false) (hr : resyncEffectFires prev cur b = true) :
    runEffects (n + 2) prev b cur =
      { cur with timeRemaining := toSeconds (cur.durations.get cur.currentStage) } := by
  rw [runEffects_resync (n + 1) prev cur b
    (completionEffectFires_of_notRunning prev cur b hrun) hr]
  exact runEffects_stop n cur
    { cur with timeRemaining := toSeconds (cur.durations.get cur.currentStage) } false
    (completionEffectFires_of_notRunning _ _ _ hrun)
    (resyncEffectFires_of_depsEq cur
      { cur with timeRemaining := toSeconds (cur.durations.get cur.currentStage) } rfl rfl rfl)

theorem runEffects_completion_stop (n : ℕ) (prev cur : TimerState) (b : Bool)
    (hc : completionEffectFires prev cur b = true)
    (h0 : (handleStageCompletion cur).timeRemaining ≠ 0) :
    runEffects (n + 2) prev b cur = handleStageCompletion cur := by
  rw [runEffects_completion (n + 1) prev cur b hc]
  exact runEffects_stop n cur (handleStageCompletion cur) false
    (completionEffectFires_of_timeLeft _ _ _ h0)
    (resyncEffectFires_of_running _ _ _ (handleStageCompletion_isRunning cur))

theorem handleStartPause_pause (s : TimerState) (h : s.isRunning = true) :
    handleStartPause s =
      { s with isRunning := false
               timeRemaining := toSeconds (s.durations.get s.currentStage) } := by
  have hb : ({ s with isRunning := !s.isRunning } : TimerState)
      = { s with isRunning := false } := by rw [h]; rfl
  have hfr : resyncEffectFires s { s with isRunning := false } false = true := by
    simp [resyncEffectFires, h]
  rw [handleStartPause, hb]
  exact runEffects_resync_stop 1 s { s with isRunning := false } false rfl hfr

theorem handleStartPause_start (s : TimerState) (h : s.isRunning = false)
    (h0 : s.timeRemaining ≠ 0) :
    handleStartPause s = { s with isRunning := true } := by
  have hb : ({ s with isRunning := !s.isRunning } : TimerState)
      = { s with isRunning := true } := by rw [h]; rfl
  rw [handleStartPause, hb]
  exact runEffects_stop 2 s { s with isRunning := true } false
    (completionEffectFires_of_timeLeft _ _ _ h0)
    (resyncEffectFires_of_running _ _ _ rfl)

theorem handleManualStageChange_eq (s : TimerState) (stage : StageKind) :
    handleManualStageChange s stage =
      { s with currentStage := stage
               timeRemaining := toSeconds (s.durations.get stage)
               isRunning := false } := by
  rw [handleManualStageChange]
  rcases Bool.eq_false_or_eq_true
      (resyncEffectFires s (goToStage { s with isRunning := false } stage false) false)
    with hb | hb
  · exact runEffects_resync_stop 1 s (goToStage { s with isRunning := false } stage false)
      false rfl hb
  · exact runEffects_stop 2 s (goToStage { s with isRunning := false } stage false)
      false (completionEffectFires_of_notRunning _ _ _ rfl) hb

theorem handleSkip_eq (s : TimerState)
    (hd : (handleStageCompletion { s with isRunning := false }).timeRemaining ≠ 0) :
    handleSkip s = handleStageCompletion { s with isRunning := false } := by
  rw [handleSkip]
  exact runEffects_stop 2 s (handleStageCompletion { s with isRunning := false }) false
    (completionEffectFires_of_timeLeft _ _ _ hd)
    (resyncEffectFires_of_running _ _ _
      (handleStageCompletion_isRunning { s with isRunning := false }))

theorem handleReset_eq (s : TimerState) : handleReset s = initialState := by
  have hfr : resyncEffectFires s initialState true = true := by
    simp [resyncEffectFires, initialState]
  rw [handleReset]
  exact runEffects_resync_stop 1 s initialState true rfl hfr

theorem handleDurationChange_invalid (s : TimerState) (stage : StageKind)
    (value : Option String) (hv : toNumeric value = none) :
    handleDurationChange s stage value = s := by
  simp [handleDurationChange, hv]

theorem handleDurationChange_running (s : TimerState) (stage : StageKind)
    (value : Option String) (q : ℚ) (hv : toNumeric value = some q)
    (h : s.isRunning = true) (h0 : s.timeRemaining ≠ 0) :
    handleDurationChange s stage value =
      { s with durations := s.durations.set stage (clampDuration q) } := by
  rw [handleDurationChange, hv]
  exact runEffects_stop 2 s
    { s with durations := s.durations.set stage (clampDuration q) } true
    (completionEffectFires_of_timeLeft _ _ _ h0)
    (resyncEffectFires_of_running _ _ _ h)

theorem handleDurationChange_paused (s : TimerState) (stage : StageKind)
    (value : Option String) (q : ℚ) (hv : toNumeric value = some q)
    (h : s.isRunning = false) :
    handleDurationChange s stage value =
      { s with durations := s.durations.set stage (clampDuration q)
               timeRemaining :=
                 toSeconds ((s.durations.set stage (clampDuration q)).get s.currentStage) } := by
  have hfr : resyncEffectFires s
      { s with durations := s.durations.set stage (clampDuration q) } true = true := by
    simp [resyncEffectFires, h]
  rw [handleDurationChange, hv]
  exact runEffects_resync_stop 1 s
    { s with durations := s.durations.set stage (clampDuration q) } true h hfr

/-! ## The reachable-state invariant -/

theorem handleStageCompletion_durations (s : TimerState) :
    (handleStageCompletion s).durations = s.durations := by
  unfold handleStageCompletion goToStage
  split <;> rfl

theorem handleStageCompletion_timeRemaining_pos (s : TimerState)
    (hlb : ∀ st, 1 ≤ s.durations.get st) : 60 ≤ (handleStageCompletion s).timeRemaining := by
  by_cases hst : s.currentStage = .focus
  · rw [handleStageCompletion_focus s hst]
    have h1 := hlb (nextFocusTarget s)
    show 60 ≤ toSeconds (s.durations.get (nextFocusTarget s))
    unfold toSeconds
    omega
  · rw [handleStageCompletion_notFocus s hst]
    have h1 := hlb .focus
    simp only [Durations.get] at h1
    show 60 ≤ toSeconds s.durations.focus
    unfold toSeconds
    omega

theorem engineInv_handleStageCompletion (s : TimerState) (hlb : ∀ st, 1 ≤ s.durations.get st)
    (hub : ∀ st, s.durations.get st ≤ 90) : EngineInv (handleStageCompletion s) := by
  have hdur := handleStageCompletion_durations s
  have hrun := handleStageCompletion_isRunning s
  have hpos := handleStageCompletion_timeRemaining_pos s hlb
  exact
    { dur_lb := fun st => hdur ▸ hlb st
      dur_ub := fun st => hdur ▸ hub st
      paused_sync := by
        intro hf
        rw [hrun] at hf
        cases hf
      running_pos := fun _ => le_trans (by omega) hpos }

theorem engineInv_initialState : EngineInv initialState := by
  refine ⟨?_, ?_, ?_, ?_⟩
  · intro st
    cases st <;> decide
  · intro st
    cases st <;> decide
  · intro _
    rfl
  · intro hf
    cases hf

theorem engineInv_step (c : Cmd) (s : TimerState) (h : EngineInv s) : EngineInv (step c s) := by
  cases c with
  | tick =>
    show EngineInv (tick s)
    rcases Bool.eq_false_or_eq_true s.isRunning with hr | hr
    · rcases Nat.lt_or_ge s.timeRemaining 2 with h2 | h2
      · have h1 : s.timeRemaining = 1 := by
          have := h.running_pos hr
          omega
        have hd0 : ({ s with timeRemaining := 0 } : TimerState).durations = s.durations := rfl
        rw [tick_crossesZero s hr h1 (by
          have := handleStageCompletion_timeRemaining_pos { s with timeRemaining := 0 }
            (fun st => h.dur_lb st)
          omega)]
        exact engineInv_handleStageCompletion _ (fun st => h.dur_lb st) (fun st => h.dur_ub st)
      · rw [tick_decrement s hr h2]
        exact
          { dur_lb := h.dur_lb
            dur_ub := h.dur_ub
            paused_sync := by
              intro hf
              rw [show ({ s with timeRemaining := s.timeRemaining - 1 } : TimerState).isRunning
                  = s.isRunning from rfl, hr] at hf
              cases hf
            running_pos := fun _ => by
              show 1 ≤ s.timeRemaining - 1
              omega }
    · rw [tick_notRunning s hr]
      exact h
  | toggleRunning =>
    show EngineInv (handleStartPause s)
    rcases Bool.eq_false_or_eq_true s.isRunning with hr | hr
    · have h0 : s.timeRemaining ≠ 0 := by
        have := h.running_pos hr
        omega
      rw [handleStartPause_pause s hr]
      exact
        { dur_lb := h.dur_lb
          dur_ub := h.dur_ub
          paused_sync := fun _ => rfl
          running_pos := by
            intro hf
            cases hf }
    · have h0 : s.timeRemaining ≠ 0 := by
        have hsync := h.paused_sync hr
        have := h.dur_lb s.currentStage
        unfold toSeconds at hsync
        omega
      rw [handleStartPause_start s hr h0]
      exact
        { dur_lb := h.dur_lb
          dur_ub := h.dur_ub
          paused_sync := by
            intro hf
            cases hf
          running_pos := fun _ => by
            show 1 ≤ s.timeRemaining
            omega }
  | skip =>
    show EngineInv (handleSkip s)
    rw [handleSkip_eq s (by
      have := handleStageCompletion_timeRemaining_pos { s with isRunning := false }
        (fun st => h.dur_lb st)
      omega)]
    exact engineInv_handleStageCompletion _ (fun st => h.dur_lb st) (fun st => h.dur_ub st)
  | reset =>
    show EngineInv (handleReset s)
    rw [handleReset_eq s]
    exact engineInv_initialState
  | selectStage stage =>
    show EngineInv (handleManualStageChange s stage)
    rw [handleManualStageChange_eq s stage]
    exact
      { dur_lb := h.dur_lb
        dur_ub := h.dur_ub
        paused_sync := fun _ => rfl
        running_pos := by
          intro hf
          cases hf }
  | setDuration stage value =>
    show EngineInv (handleDurationChange s stage value)
    rcases hv : toNumeric value with _ | q
    · rw [handleDurationChange_invalid s stage value hv]
      exact h
    · have hlb' : ∀ st, 1 ≤ (s.durations.set stage (clampDuration q)).get st := by
        intro st
        rw [Durations.get_set]
        split
        · exact clampDuration_lb q
        · exact h.dur_lb st
      have hub' : ∀ st, (s.durations.set stage (clampDuration q)).get st ≤ 90 := by
        intro st
        rw [Durations.get_set]
        split
        · exact clampDuration_ub q
        · exact h.dur_ub st
      rcases Bool.eq_false_or_eq_true s.isRunning with hr | hr
      · have h0 : s.timeRemaining ≠ 0 := by
          have := h.running_pos hr
          omega
        rw [handleDurationChange_running s stage value q hv hr h0]
        exact
          { dur_lb := hlb'
            dur_ub := hub'
            paused_sync := by
              intro hf
              rw [show ({ s with durations := s.durations.set stage (clampDuration q) }
                  : TimerState).isRunning = s.isRunning from rfl, hr] at hf
              cases hf
            running_pos := fun _ => by
              show 1 ≤ s.timeRemaining
              omega }
      · rw [handleDurationChange_paused s stage value q hv hr]
        exact
          { dur_lb := hlb'
            dur_ub := hub'
            paused_sync := fun _ => rfl
            running_pos := by
              intro hf
              rw [show ({ s with
                    durations := s.durations.set stage (clampDuration q)
                    timeRemaining :=
                      toSeconds ((s.durations.set stage (clampDuration q)).get s.currentStage) }
                  : TimerState).isRunning = s.isRunning from rfl, hr] at hf
              cases hf }

theorem engineInv_reachable {s : TimerState} (h : Reachable s) : EngineInv s := by
  induction h with
  | init => exact engineInv_initialState
  | next c _ ih => exact engineInv_step c _ ih

/-! ## Claims -/

/-- C1: Long-break cadence.  When a Focus stage's countdown reaches zero
while running (one interval firing from `timeRemaining = 1`),
`completedFocusSessions` is incremented by 1 and the engine moves to
LongBreak exactly when the incremented count is divisible by 4, else to
ShortBreak, with `isRunning = true` and `timeRemaining` reset to the new
stage's full duration. -/
theorem claim1_long_break_cadence (s : TimerState)
    (hrun : s.isRunning = true) (hst : s.currentStage = .focus) (h1 : s.timeRemaining = 1)
    (hlb : ∀ st, 1 ≤ s.durations.get st) :
    tick s =
      { durations := s.durations
        currentStage :=
          if (s.completedFocusSessions + 1) % 4 = 0 then .longBreak else .shortBreak
        timeRemaining := toSeconds (s.durations.get
          (if (s.completedFocusSessions + 1) % 4 = 0 then .longBreak else .shortBreak))
        isRunning := true
        completedFocusSessions := s.completedFocusSessions + 1 } := by
  have hd : (handleStageCompletion { s with timeRemaining := 0 }).timeRemaining ≠ 0 := by
    have := handleStageCompletion_timeRemaining_pos { s with timeRemaining := 0 }
      (fun st => hlb st)
    omega
  rw [tick_crossesZero s hrun h1 hd,
    handleStageCompletion_focus { s with timeRemaining := 0 } hst]
  simp only [nextFocusTarget, LONG_BREAK_INTERVAL]

/-- Witness for C1 at the concrete state of the claim: Focus, running,
`completedFocusSessions = 3`, default durations — the zero-crossing yields
count 4, LongBreak, running, 900 seconds remaining. -/
theorem claim1_long_break_cadence_witness :
    tick { durations := defaultDurations, currentStage := .focus, timeRemaining := 1,
           isRunning := true, completedFocusSessions := 3 } =
      { durations := defaultDurations, currentStage := .longBreak, timeRemaining := 900,
        isRunning := true, completedFocusSessions := 4 } := by
  have h := claim1_long_break_cadence
    { durations := defaultDurations, currentStage := .focus, timeRemaining := 1,
      isRunning := true, completedFocusSessions := 3 } rfl rfl rfl
    (fun st => by cases st <;> decide)
  exact h.trans (by decide)

/-- C6: Prediction consistency.  In a Focus stage, the stage named by
`nextStageLabel` (LongBreak exactly when `(completedFocusSessions + 1) % 4
= 0`, else ShortBreak) is the stage `handleStageCompletion` actually
transitions to; in a non-Focus stage the prediction is Focus and the
transition goes to Focus. -/
theorem claim6_prediction_consistency (s : TimerState) :
    (s.currentStage = .focus →
      nextStageLabel s = stageLabel (handleStageCompletion s).currentStage) ∧
    (s.currentStage ≠ .focus →
      nextStageLabel s = stageLabel .focus ∧
      (handleStageCompletion s).currentStage = .focus) := by
  constructor
  · intro hst
    rw [handleStageCompletion_focus s hst]
    by_cases h4 : (s.completedFocusSessions + 1) % LONG_BREAK_INTERVAL = 0 <;>
      simp [nextStageLabel, nextFocusTarget, hst, h4]
  · intro hst
    rw [handleStageCompletion_notFocus s hst]
    exact ⟨by simp [nextStageLabel, hst], rfl⟩

/-- Witness for C6 at the initial state (Focus, zero completed sessions):
the prediction names the stage the completion transition reaches. -/
theorem claim6_prediction_consistency_witness :
    nextStageLabel initialState =
      stageLabel (handleStageCompletion initialState).currentStage :=
  (claim6_prediction_consistency initialState).1 rfl

/-- C3: setDuration frame rule.  On a reachable state, a duration change
with a numeric value updates only `durations[stage]`; when paused and
`stage` is the current stage it additionally recomputes `timeRemaining` as
the new duration's seconds, and in every other case (other stage, or
running) `timeRemaining` — like `currentStage`, `isRunning` and
`completedFocusSessions` — is unchanged, so a duration change while
running never retroactively alters the in-flight countdown. -/
theorem claim3_setDuration_frame (s : TimerState) (stage : StageKind) (value : Option String)
    (q : ℚ) (hreach : Reachable s) (hv : toNumeric value = some q) :
    (handleDurationChange s stage value).durations.get stage = clampDuration q ∧
    (∀ st, st ≠ stage →
      (handleDurationChange s stage value).durations.get st = s.durations.get st) ∧
    (handleDurationChange s stage value).currentStage = s.currentStage ∧
    (handleDurationChange s stage value).isRunning = s.isRunning ∧
    (handleDurationChange s stage value).completedFocusSessions = s.completedFocusSessions ∧
    (s.isRunning = false → stage = s.currentStage →
      (handleDurationChange s stage value).timeRemaining = toSeconds (clampDuration q)) ∧
    (s.isRunning = true ∨ stage ≠ s.currentStage →
      (handleDurationChange s stage value).timeRemaining = s.timeRemaining) := by
  have hinv := engineInv_reachable hreach
  rcases Bool.eq_false_or_eq_true s.isRunning with hr | hr
  · have h0 : s.timeRemaining ≠ 0 := by
      have := hinv.running_pos hr
      omega
    rw [handleDurationChange_running s stage value q hv hr h0]
    refine ⟨?_, ?_, rfl, rfl, rfl, ?_, fun _ => rfl⟩
    · show (s.durations.set stage (clampDuration q)).get stage = clampDuration q
      rw [Durations.get_set]
      simp
    · intro st hst
      show (s.durations.set stage (clampDuration q)).get st = s.durations.get st
      rw [Durations.get_set, if_neg hst]
    · intro hf
      rw [hf] at hr
      cases hr
  · rw [handleDurationChange_paused s stage value q hv hr]
    refine ⟨?_, ?_, rfl, rfl, rfl, ?_, ?_⟩
    · show (s.durations.set stage (clampDuration q)).get stage = clampDuration q
      rw [Durations.get_set]
      simp
    · intro st hst
      show (s.durations.set stage (clampDuration q)).get st = s.durations.get st
      rw [Durations.get_set, if_neg hst]
    · intro _ hstage
      show toSeconds ((s.durations.set stage (clampDuration q)).get s.currentStage) = _
      rw [← hstage, Durations.get_set]
      simp
    · intro hcase
      rcases hcase with hf | hst
      · rw [hf] at hr
        cases hr
      · show toSeconds ((s.durations.set stage (clampDuration q)).get s.currentStage)
          = s.timeRemaining
        rw [Durations.get_set, if_neg (fun hh => hst hh.symm), hinv.paused_sync hr]

/-- Witness for C3 at the initial (paused, Focus) state with input "10":
the Focus duration becomes 10 and the countdown resyncs to 600 seconds,
while the other stages' durations are untouched. -/
theorem claim3_setDuration_frame_witness :
    (handleDurationChange initialState .focus (some "10")).durations.get .focus
        = clampDuration 10 ∧
    (handleDurationChange initialState .focus (some "10")).timeRemaining
        = toSeconds (clampDuration 10) := by
  have h := claim3_setDuration_frame initialState .focus (some "10") 10
    Reachable.init (by decide)
  exact ⟨h.1, h.2.2.2.2.2.1 rfl rfl⟩

/-- C4: Duration clamp and garbage rejection.  A numeric input is stored
as `round(v)` clamped to [1, 90]; a non-numeric input leaves the whole
state unchanged. -/
theorem claim4_duration_clamp_and_garbage (s : TimerState) (stage : StageKind)
    (value : Option String) :
    (∀ q, toNumeric value = some q →
      (handleDurationChange s stage value).durations.get stage = clampDuration q ∧
      clampDuration q = (clamp (round q) 1 90).toNat ∧
      1 ≤ clampDuration q ∧ clampDuration q ≤ 90) ∧
    (toNumeric value = none → handleDurationChange s stage value = s) := by
  constructor
  · intro q hv
    refine ⟨?_, by rw [clampDuration, jsRound_eq_round], clampDuration_lb q,
      clampDuration_ub q⟩
    show (handleDurationChange s stage value).durations.get stage = clampDuration q
    rw [handleDurationChange]
    rw [hv]
    rw [runEffects_durations]
    show (s.durations.set stage (clampDuration q)).get stage = clampDuration q
    rw [Durations.get_set]
    simp
  · exact handleDurationChange_invalid s stage value

/-- Witness for C4: `"150"` is numeric and stores the clamped value 90;
`"abc"` is `NaN` and the command leaves the state unchanged. -/
theorem claim4_duration_clamp_and_garbage_witness :
    (handleDurationChange initialState .focus (some "150")).durations.get .focus = 90 ∧
    handleDurationChange initialState .focus (some "abc") = initialState := by
  constructor
  · have h := (claim4_duration_clamp_and_garbage initialState .focus (some "150")).1 150
      (by decide)
    rw [h.1]
    decide
  · exact (claim4_duration_clamp_and_garbage initialState .focus (some "abc")).2 (by decide)

/-- C10: An empty, `null` or `undefined` duration input is not rejected:
`Number(value ?? 0)` parses it as 0, which clamps to 1, so
`durations[stage]` is set to 1 whatever it was, the other stages being
untouched. -/
theorem claim10_empty_input_sets_one (s : TimerState) (stage : StageKind)
    (value : Option String) (hv : value = none ∨ value = some "") :
    (handleDurationChange s stage value).durations.get stage = 1 ∧
    (∀ st, st ≠ stage →
      (handleDurationChange s stage value).durations.get st = s.durations.get st) := by
  have hq : toNumeric value = some 0 := by
    rcases hv with h | h <;> rw [h] <;> decide
  have hcd : clampDuration 0 = 1 := by decide
  constructor
  · show (handleDurationChange s stage value).durations.get stage = 1
    rw [handleDurationChange, hq, runEffects_durations]
    show (s.durations.set stage (clampDuration 0)).get stage = 1
    rw [Durations.get_set, hcd]
    simp
  · intro st hst
    rw [handleDurationChange, hq, runEffects_durations]
    show (s.durations.set stage (clampDuration 0)).get st = s.durations.get st
    rw [Durations.get_set, if_neg hst]

/-- Witness for C10: at the initial state (Focus duration 25), an empty
string input resets the Focus duration to 1 — visibly not a no-op. -/
theorem claim10_empty_input_sets_one_witness :
    initialState.durations.get .focus = 25 ∧
    (handleDurationChange initialState .focus (some "")).durations.get .focus = 1 := by
  constructor
  · decide
  · exact (claim10_empty_input_sets_one initialState .focus (some "") (Or.inr rfl)).1

/-- C2 evidence: toggling twice is not state-preserving.  From the
reachable running state with 1498 s left (two ticks into the initial
Focus stage), pausing fires the resync effect — its `isRunning`
dependency changed — which resets `timeRemaining` to the full 1500 s, so
after the second toggle `isRunning` is back to true but the countdown has
been reset. -/
theorem claim2_toggle_pause_resets_countdown :
    Reachable midCountdownState ∧
    midCountdownState.isRunning = true ∧
    midCountdownState.timeRemaining = 1498 ∧
    (handleStartPause (handleStartPause midCountdownState)).isRunning = true ∧
    (handleStartPause (handleStartPause midCountdownState)).timeRemaining = 1500 := by
  refine ⟨?_, by decide, by decide, by decide, by decide⟩
  exact Reachable.next .tick (Reachable.next .tick
    (Reachable.next .toggleRunning Reachable.init))

/-- C5 counterexample: `progressFraction` is not bounded below by 0 on
reachable states.  In `lowDurationState` (running Focus countdown of
1500 s, Focus duration lowered to 1 minute) the progress value is
`min 1 ((60 - 1500)/60) = -24 < 0`: the source clamps only above
(`Math.min(100, …)`). -/
theorem claim5_progress_below_zero_counterexample :
    Reachable lowDurationState ∧ progressFraction lowDurationState < 0 := by
  constructor
  · exact Reachable.next (.setDuration .focus (some "1"))
      (Reachable.next .toggleRunning Reachable.init)
  · have hst : lowDurationState =
        { durations := { focus := 1, shortBreak := 5, longBreak := 15 },
          currentStage := .focus, timeRemaining := 1500, isRunning := true,
          completedFocusSessions := 0 } := by decide
    rw [hst]
    norm_num [progressFraction, progressValue, totalSeconds, toSeconds, Durations.get,
      min_def]

/-- C5 amended: on every reachable state the progress fraction is the
upper-clamped ratio `min 1 ((total - remaining)/total)` over a positive
total, hence at most 1; it is at least 0 exactly on the states where
`remainingSeconds` does not exceed the stage total (lowering the current
stage's duration while running produces reachable states where it is
negative). -/
theorem claim5_progress_bounds_amended (s : TimerState) (h : Reachable s) :
    progressFraction s ≤ 1 ∧
    (s.timeRemaining ≤ totalSeconds s → 0 ≤ progressFraction s) ∧
    totalSeconds s ≠ 0 ∧
    progressFraction s =
      min 1 (((totalSeconds s : ℚ) - (s.timeRemaining : ℚ)) / (totalSeconds s : ℚ)) := by
  have hinv := engineInv_reachable h
  have hT : 0 < totalSeconds s := by
    have := hinv.dur_lb s.currentStage
    unfold totalSeconds toSeconds
    omega
  have hT0 : totalSeconds s ≠ 0 := by omega
  have hTQ : (0 : ℚ) < (totalSeconds s : ℚ) := by exact_mod_cast hT
  have hfrac : progressFraction s =
      min 1 (((totalSeconds s : ℚ) - (s.timeRemaining : ℚ)) / (totalSeconds s : ℚ)) := by
    unfold progressFraction progressValue
    rw [if_neg hT0, ← min_div_div_right (by norm_num : (0:ℚ) ≤ 100),
      mul_div_assoc, div_self (by norm_num : (100:ℚ) ≠ 0), mul_one]
  refine ⟨?_, ?_, hT0, hfrac⟩
  · rw [hfrac]
    exact min_le_left _ _
  · intro hle
    rw [hfrac]
    refine le_min (by norm_num) (div_nonneg ?_ (le_of_lt hTQ))
    have hc : (s.timeRemaining : ℚ) ≤ (totalSeconds s : ℚ) := by exact_mod_cast hle
    linarith

/-- Witness for the amended C5 at the initial state: the fraction lies in
[0, 1] there. -/
theorem claim5_progress_bounds_witness :
    progressFraction initialState ≤ 1 ∧ 0 ≤ progressFraction initialState :=
  ⟨(claim5_progress_bounds_amended initialState Reachable.init).1,
    (claim5_progress_bounds_amended initialState Reachable.init).2.1 (by decide)⟩

/-- C7 counterexample: `selectStage` with the unrecognized string key
`"bogus"` (not one of the three stage keys, so its `durations` lookup is
`undefined`) is not a no-op: the guard only rejects non-string keys, so
`currentStage` becomes `"bogus"` and `timeRemaining` becomes
`toSeconds(undefined) = NaN`. -/
theorem claim7_invalid_string_key_counterexample :
    jsLookup jsInitialState.durations "bogus" = none ∧
    jsHandleManualStageChange jsInitialState (.str "bogus") ≠ jsInitialState ∧
    (jsHandleManualStageChange jsInitialState (.str "bogus")).currentStage = "bogus" ∧
    (jsHandleManualStageChange jsInitialState (.str "bogus")).timeRemaining = none := by
  refine ⟨by decide, by decide, by decide, by decide⟩

/-- C7 amended: the defensive no-op guard of `selectStage` covers exactly
the non-string keys; a string key outside the stage enumeration passes
the guard and corrupts the state — `currentStage` becomes that key,
`isRunning` false, and `timeRemaining` NaN (`none`). -/
theorem claim7_invalid_key_guard_amended (s : JsState) (k : String)
    (hk : jsLookup s.durations k = none) :
    jsHandleManualStageChange s .nonString = s ∧
    jsHandleManualStageChange s (.str k) =
      { s with isRunning := false, currentStage := k, timeRemaining := none } := by
  refine ⟨rfl, ?_⟩
  show jsResync (jsGoToStage { s with isRunning := false } k false) = _
  unfold jsGoToStage jsResync
  simp [hk]

/-- Witness for the amended C7 at the initial state with the key
`"unknown"`. -/
theorem claim7_invalid_key_guard_witness :
    jsHandleManualStageChange jsInitialState (.str "unknown") =
      { jsInitialState with
        isRunning := false
        currentStage := "unknown"
        timeRemaining := none } :=
  (claim7_invalid_key_guard_amended jsInitialState "unknown" (by decide)).2

/-- C9 counterexample: 25 ticks into the default Focus stage leave
1500 − 25 = 1475 seconds, not 1499, and the display reads "24:35", not
"24:59". -/
theorem claim9_scenario_a_counterexample :
    scenarioAState.timeRemaining ≠ 1499 ∧ formattedTime scenarioAState ≠ "24:59" := by
  refine ⟨by decide, by decide⟩

theorem reachable_iterate (c : Cmd) (n : ℕ) {s : TimerState} (h : Reachable s) :
    Reachable (Nat.iterate (step c) n s) := by
  induction n with
  | zero => exact h
  | succ n ih =>
    rw [Function.iterate_succ_apply']
    exact Reachable.next c ih

/-- C9 amended: Scenario A with the arithmetic corrected — default
durations, `selectStage(Focus)`, `toggleRunning()`, then exactly 25 ticks
reach `remainingSeconds = 1475` and `formattedRemaining() = "24:35"`
(each tick decreases the countdown by exactly 1 from 1500). -/
theorem claim9_scenario_a_amended :
    Reachable scenarioAState ∧ scenarioAState.timeRemaining = 1475 ∧
    formattedTime scenarioAState = "24:35" := by
  refine ⟨?_, by decide, by decide⟩
  exact reachable_iterate .tick 25
    (Reachable.next .toggleRunning (Reachable.next (.selectStage .focus) Reachable.init))

/-- C8 counterexample: the bound `remainingSeconds ≤ durations[currentStage]
* 60` fails on a reachable state that is not at the transient zero:
`lowDurationState` has 1500 s remaining against a 60 s stage total, after
the running Focus stage's duration was lowered to 1 minute. -/
theorem claim8_remaining_bound_counterexample :
    Reachable lowDurationState ∧
    lowDurationState.timeRemaining ≠ 0 ∧
    ¬(lowDurationState.timeRemaining ≤
        toSeconds (lowDurationState.durations.get lowDurationState.currentStage)) := by
  refine ⟨?_, by decide, by decide⟩
  exact Reachable.next (.setDuration .focus (some "1"))
    (Reachable.next .toggleRunning Reachable.init)

theorem reachablePausedEdits_toReachable {s : TimerState} (h : ReachablePausedEdits s) :
    Reachable s := by
  induction h with
  | init => exact Reachable.init
  | next c _ _ ih => exact Reachable.next c ih

theorem handleStageCompletion_sync (t : TimerState) :
    (handleStageCompletion t).timeRemaining =
      toSeconds ((handleStageCompletion t).durations.get
        (handleStageCompletion t).currentStage) := by
  unfold handleStageCompletion goToStage
  split <;> rfl

/-- C8 amended: the upper bound `remainingSeconds ≤ durations[currentStage]
* 60` holds in every state reachable when every `setDuration` is issued
while paused; a `setDuration` that lowers the current stage's duration
while running escapes it (the in-flight countdown is deliberately not
resynchronized), as the counterexample shows.  The transient zero needs no
exception: a zero-crossing completes within its own tick. -/
theorem claim8_remaining_bound_amended (s : TimerState) (h : ReachablePausedEdits s) :
    s.timeRemaining ≤ toSeconds (s.durations.get s.currentStage) := by
  induction h with
  | init => exact Nat.le_refl _
  | @next c s' hc hr ih =>
    have hinv := engineInv_reachable (reachablePausedEdits_toReachable hr)
    cases c with
    | tick =>
      simp only [step]
      rcases Bool.eq_false_or_eq_true s'.isRunning with hrun | hrun
      · rcases Nat.lt_or_ge s'.timeRemaining 2 with h2 | h2
        · have h1 : s'.timeRemaining = 1 := by
            have := hinv.running_pos hrun
            omega
          have hd : (handleStageCompletion { s' with timeRemaining := 0 }).timeRemaining
              ≠ 0 := by
            have := handleStageCompletion_timeRemaining_pos { s' with timeRemaining := 0 }
              (fun st => hinv.dur_lb st)
            omega
          rw [tick_crossesZero s' hrun h1 hd]
          exact le_of_eq (handleStageCompletion_sync { s' with timeRemaining := 0 })
        · rw [tick_decrement s' hrun h2]
          show s'.timeRemaining - 1 ≤ toSeconds (s'.durations.get s'.currentStage)
          omega
      · rw [tick_notRunning s' hrun]
        exact ih
    | toggleRunning =>
      simp only [step]
      rcases Bool.eq_false_or_eq_true s'.isRunning with hrun | hrun
      · rw [handleStartPause_pause s' hrun]
      · have h0 : s'.timeRemaining ≠ 0 := by
          have hsync := hinv.paused_sync hrun
          have := hinv.dur_lb s'.currentStage
          unfold toSeconds at hsync
          omega
        rw [handleStartPause_start s' hrun h0]
        exact ih
    | skip =>
      simp only [step]
      rw [handleSkip_eq s' (by
        have := handleStageCompletion_timeRemaining_pos { s' with isRunning := false }
          (fun st => hinv.dur_lb st)
        omega)]
      exact le_of_eq (handleStageCompletion_sync { s' with isRunning := false })
    | reset =>
      simp only [step]
      rw [handleReset_eq s']
      exact Nat.le_refl _
    | selectStage stage =>
      simp only [step]
      rw [handleManualStageChange_eq s' stage]
    | setDuration stage value =>
      simp only [step]
      have hpause : s'.isRunning = false := hc stage value rfl
      rcases hv : toNumeric value with _ | q
      · rw [handleDurationChange_invalid s' stage value hv]
        exact ih
      · rw [handleDurationChange_paused s' stage value q hv hpause]

/-- Witness for the amended C8 at the initial state (trivially reachable
with paused-only edits). -/
theorem claim8_remaining_bound_witness :
    initialState.timeRemaining ≤
      toSeconds (initialState.durations.get initialState.currentStage) :=
  claim8_remaining_bound_amended initialState ReachablePausedEdits.init
